import Mathlib

/-!
Shallow embedding of the spreadsheet-normalization core of the work-orders
dashboard (src/pages/banks_peridics_page.py and src/pages/tickets_page.py),
together with theorems checking the natural-language specification against it.

Modelling conventions:
* A raw spreadsheet scalar is a `Cell`: `null` models Python `None`, `nan`
  models a float NaN, `text` a `str` value, and `num` any other scalar
  (number, date, ...) carried by its `str()` rendering.
* Python string operations `str.strip()`, `str.lower()` and the substring
  test `k in s` are modelled over the character list of the string, so that
  every definition evaluates inside the kernel.
* The float score of `detect_header_row` is modelled as an exact rational,
  represented as an integer numerator/denominator pair (`Score`); the bridge
  `Score.val : Score → ℚ` relates the comparison performed by the code to
  the rational score formula of the specification.
* pandas frames are association-list rows (`Row`) plus a column list
  (`Frame`); pandas missing-data tests (`dropna`, `groupby` key dropping)
  use `isNA`, which is true exactly on `null` and `nan`.
-/

namespace WorkOrders

/-- Python `str.lower()` (character-wise, as used on the ASCII keywords of
the vocabularies). -/
def lowerStr (s : String) : String := ⟨s.data.map Char.toLower⟩

/-- Whitespace trimming on a character list. -/
def trimChars (l : List Char) : List Char :=
  ((l.dropWhile Char.isWhitespace).reverse.dropWhile Char.isWhitespace).reverse

/-- Python `str.strip()`. -/
def trimStr (s : String) : String := ⟨trimChars s.data⟩

/-- Substring containment on character lists (Python `need in hay`). -/
def containsSub (hay need : List Char) : Bool :=
  need.isPrefixOf hay ||
    match hay with
    | [] => false
    | _ :: t => containsSub t need

/-- Python substring test `need in hay` on strings. -/
def containsStr (hay need : String) : Bool := containsSub hay.data need.data

/-- A raw spreadsheet cell as read by pandas: `null` is Python `None`,
`nan` a float NaN, `text` a `str` value, and `num` any other scalar carried
by its `str()` rendering. -/
inductive Cell where
  | null
  | nan
  | text (s : String)
  | num (rendering : String)
  deriving DecidableEq, Repr

/-- Python `str(v)`: `str(None) = "None"`, `str(float('nan')) = "nan"`. -/
def str_of : Cell → String
  | .null => "None"
  | .nan => "nan"
  | .text s => s
  | .num r => r

/-- pandas missing-value test (`None` or NaN), the notion used by `dropna`
and by `groupby` key dropping. -/
def isNA : Cell → Bool
  | .null => true
  | .nan => true
  | .text _ => false
  | .num _ => false

namespace Banks

/-- `_is_blank` from src/pages/banks_peridics_page.py: `None`, float NaN, or
a value whose stripped string form is empty or lowercases to "nan"/"none". -/
def _is_blank (v : Cell) : Bool :=
  match v with
  | .null => true
  | .nan => true
  | _ =>
    let s := trimStr (str_of v)
    s == "" || lowerStr s == "nan" || lowerStr s == "none"

/-- The non-blank cells of a preview row (`non_blank` in `detect_header_row`). -/
def nonBlank (row : List Cell) : List Cell := row.filter (fun v => !_is_blank v)

/-- `str_like` in `detect_header_row`: non-blank cells that are `str`-typed. -/
def strLike (row : List Cell) : Nat :=
  ((nonBlank row).filter (fun v => match v with | .text _ => true | _ => false)).length

/-- `len(set(as_str))` in `detect_header_row`: distinct stripped string forms
among the non-blank cells. -/
def distinctCount (row : List Cell) : Nat :=
  (((nonBlank row).map (fun v => trimStr (str_of v))).dedup).length

/-- An exact rational score value, numerator over denominator.  The Python
code computes the score in floating point; every quantity involved is an
exact small rational, which this pair represents without rounding. -/
structure Score where
  num : Int
  den : Int
  deriving DecidableEq, Repr

/-- The rational value of a `Score`. -/
def Score.val (s : Score) : ℚ := (s.num : ℚ) / (s.den : ℚ)

/-- Strict greater-than on scores by cross-multiplication (exact for
positive denominators); models the `score > best_score` float comparison. -/
def Score.bgt (a b : Score) : Bool := decide (b.num * a.den < a.num * b.den)

/-- The row score of `detect_header_row`,
`len(non_blank)*1.5 + str_like*2.0 + uniqueness*3.0` with
`uniqueness = len(set(as_str)) / max(1, len(as_str))`, as an exact rational:
numerator `(3*nb + 4*str_like)*d + 6*distinct` over denominator `2*d`
where `d = max 1 nb`. -/
def rowScore (row : List Cell) : Score :=
  let nb := (nonBlank row).length
  let d := max 1 nb
  { num := (((3 * nb + 4 * strLike row) * d + 6 * distinctCount row : Nat) : Int),
    den := ((2 * d : Nat) : Int) }

/-- The specification's score formula over the rationals. -/
def scoreQ (row : List Cell) : ℚ :=
  ((nonBlank row).length : ℚ) * 1.5 + (strLike row : ℚ) * 2.0 +
    ((distinctCount row : ℚ) / ((max 1 (nonBlank row).length : Nat) : ℚ)) * 3.0

/-- The scanning loop of `detect_header_row`: `i` is the index of the first
row of `l` in the preview, `best_i`/`best_score` the best row found so far. -/
def detectGo : List (List Cell) → Nat → Nat → Score → Nat
  | [], _, best_i, _ => best_i
  | row :: rest, i, best_i, best_score =>
    if (nonBlank row).length < 2 then
      detectGo rest (i + 1) best_i best_score
    else if (rowScore row).bgt best_score then
      detectGo rest (i + 1) i (rowScore row)
    else
      detectGo rest (i + 1) best_i best_score

/-- `detect_header_row` from src/pages/banks_peridics_page.py.  `rows` is the
raw sheet preview; reading with `nrows = scan_rows` is modelled by
`rows.take scan_rows`.  The initial best index is 0 and the initial best
score is -1.0. -/
def detect_header_row (rows : List (List Cell)) (scan_rows : Nat := 80) : Nat :=
  detectGo (rows.take scan_rows) 0 0 ⟨-1, 1⟩

/-- The spec's header-detection example: a sparse section-title row above a
3-cell label row and a 3-cell data row. -/
def headerExampleRows : List (List Cell) :=
  [[Cell.text "Section A"],
   [Cell.text "Name", Cell.text "Date", Cell.text "Status"],
   [Cell.text "John", Cell.text "2024-01-01", Cell.text "Open"]]

/-- `find_required_col` from src/pages/banks_peridics_page.py: the first
column (left-to-right) whose stripped, lowercased name contains one of the
fallback keywords as a substring; `none` when no column matches. -/
def find_required_col (cols : List String) (fallbacks : List String) : Option String :=
  cols.find? (fun c => fallbacks.any (fun k => containsStr (lowerStr (trimStr c)) k))

/-- A loaded sheet: column names plus positional data rows. -/
structure Sheet where
  cols : List String
  rows : List (List Cell)
  deriving DecidableEq, Repr

/-- The column indices that survive `dropna(axis=1, how="all")`: those with
at least one non-NA cell among the data rows.  Missing cells of a ragged row
read as NaN, as pandas pads short rows. -/
def keptCols (labels : List Cell) (data : List (List Cell)) : List Nat :=
  (List.range labels.length).filter
    (fun j => !(data.all (fun r => isNA (r.getD j Cell.nan))))

/-- `read_sheet_with_detected_header` from src/pages/banks_peridics_page.py,
after `pd.read_excel(header=header_row)` has materialized the frame.
`labels` are the column labels as assigned by pandas itself (an external
collaborator: pandas renders an NA header cell as "Unnamed: N" and
deduplicates duplicate labels; those labels arrive here as scalars, hence
`Cell`), and `data` the rows below the header.  The code then drops the
columns that are entirely NA across the data rows
(`dropna(axis=1, how="all")`), then the rows that are entirely NA
(`dropna(axis=0, how="all")`), and applies `[str(c).strip() for c in
df.columns]` to the surviving labels. -/
def read_sheet_with_detected_header (labels : List Cell) (data : List (List Cell)) :
    Sheet :=
  { cols := (keptCols labels data).map (fun j => trimStr (str_of (labels.getD j Cell.nan))),
    rows := (data.map (fun r => (keptCols labels data).map (fun j => r.getD j Cell.nan))).filter
      (fun r => r.any (fun v => !isNA v)) }

end Banks

namespace Tickets

/-- One frame row: an association list from column name to cell value. -/
abbrev Row := List (String × Cell)

/-- Reading a cell of a row by column name (`row[col]`); `null` when the
column is absent. -/
def rowGet (r : Row) (c : String) : Cell :=
  match r.find? (fun p => p.1 == c) with
  | some p => p.2
  | none => Cell.null

/-- Column assignment `d[c] = v` restricted to one row: replaces the value
of every pair named `c`, or appends the new column at the end when absent
(pandas appends new columns on assignment). -/
def rowSet (r : Row) (c : String) (v : Cell) : Row :=
  if r.any (fun p => p.1 == c) then
    r.map (fun p => if p.1 == c then (p.1, v) else p)
  else
    r ++ [(c, v)]

/-- A pandas frame: ordered column names and association-list rows. -/
structure Frame where
  cols : List String
  rows : List Row
  deriving DecidableEq, Repr

/-- `_clean_text` from src/pages/tickets_page.py at cell level:
`astype(str).str.strip()` followed by replacing "", "nan" and "None"
(exact matches) with `None`. -/
def _clean_text (v : Cell) : Option String :=
  let s := trimStr (str_of v)
  if s == "" || s == "nan" || s == "None" then none else some s

/-- `normalize_priority` from src/pages/tickets_page.py at cell level;
the per-row result is `None` (modelled `Cell.null`) or one of the three
priority labels. -/
def normalize_priority (v : Cell) : Cell :=
  match _clean_text v with
  | none => Cell.null
  | some s =>
    let vl := lowerStr s
    if containsStr vl "high" then Cell.text "High"
    else if containsStr vl "medium" then Cell.text "Medium"
    else if containsStr vl "low" then Cell.text "Low"
    else Cell.null

/-- `normalize_status` from src/pages/tickets_page.py at cell level:
substring-based, case-insensitive, first-match-wins in the order
Closed, In Progress, Open, Other. -/
def normalize_status (v : Cell) : Cell :=
  match _clean_text v with
  | none => Cell.null
  | some s =>
    let vl := lowerStr s
    if containsStr vl "closed" then Cell.text "Closed"
    else if containsStr vl "progress" then Cell.text "In Progress"
    else if containsStr vl "open" then Cell.text "Open"
    else Cell.text "Other"

/-- `normalize_assigned_to` from src/pages/tickets_page.py at cell level:
just `_clean_text`. -/
def normalize_assigned_to (v : Cell) : Cell :=
  match _clean_text v with
  | none => Cell.null
  | some s => Cell.text s

/-- Whether the frame has a "Priority" column (checked before the Priority
assignment in `_prep_common`). -/
def prepHasP (df : Frame) : Bool := df.cols.contains "Priority"

/-- The column list after the Priority step of `_prep_common`. -/
def prepCols1 (df : Frame) : List String :=
  if prepHasP df then df.cols else df.cols ++ ["Priority"]

/-- Whether "Assigned To" is present when `_prep_common` reaches the
Assigned-To step (i.e. in the columns as extended by the Priority step). -/
def prepHasA (df : Frame) : Bool := (prepCols1 df).contains "Assigned To"

/-- The final column list produced by `_prep_common`. -/
def prepCols2 (df : Frame) : List String :=
  if prepHasA df then prepCols1 df else prepCols1 df ++ ["Assigned To"]

/-- The row-wise transformation of `_prep_common`: normalize (or null-fill)
Priority, then the status column, then Assigned To, in source order. -/
def prepRow (hasP hasA : Bool) (status_col : String) (r : Row) : Row :=
  let r1 := if hasP then rowSet r "Priority" (normalize_priority (rowGet r "Priority"))
            else rowSet r "Priority" Cell.null
  let r2 := rowSet r1 status_col (normalize_status (rowGet r1 status_col))
  if hasA then rowSet r2 "Assigned To" (normalize_assigned_to (rowGet r2 "Assigned To"))
  else rowSet r2 "Assigned To" Cell.null

/-- The `dropna(subset=["Priority", status_col])` test of `_prep_common`:
keep a prepped row iff neither key field is missing. -/
def prepKeep (status_col : String) (r : Row) : Bool :=
  !isNA (rowGet r "Priority") && !isNA (rowGet r status_col)

/-- `_prep_common` from src/pages/tickets_page.py: empty frame if the status
column is absent; otherwise normalize Priority / status / Assigned To and
drop the rows where Priority or the status column normalized to null. -/
def _prep_common (df : Frame) (status_col : String) : Frame :=
  if df.cols.contains status_col then
    { cols := prepCols2 df,
      rows := (df.rows.map (prepRow (prepHasP df) (prepHasA df) status_col)).filter
        (prepKeep status_col) }
  else
    { cols := df.cols, rows := [] }

/-- `filter_not_closed` from src/pages/tickets_page.py:
`d[d[status_col] != "Closed"]` over the prepped frame.  The column selection
`d[status_col]` raises `KeyError` when the prepped frame lacks the column
(which happens exactly when the input frame lacked it, since `_prep_common`
then returns the empty `df.iloc[0:0]` slice with the original columns); the
raise is modelled by `none`. -/
def filter_not_closed (df : Frame) (status_col : String) : Option Frame :=
  let d := _prep_common df status_col
  if d.cols.contains status_col then
    some { d with rows := d.rows.filter (fun r => !(rowGet r status_col == Cell.text "Closed")) }
  else none

/-- `filter_closed` from src/pages/tickets_page.py:
`d[d[status_col] == "Closed"]` over the prepped frame; the `KeyError` on a
missing column is modelled by `none`, as in `filter_not_closed`. -/
def filter_closed (df : Frame) (status_col : String) : Option Frame :=
  let d := _prep_common df status_col
  if d.cols.contains status_col then
    some { d with rows := d.rows.filter (fun r => rowGet r status_col == Cell.text "Closed") }
  else none

/-- The tuple of key values used by a `groupby`. -/
def keyOf (keys : List String) (r : Row) : List Cell := keys.map (fun c => rowGet r c)

/-- Occurrence count by decidable equality (the size of one group). -/
def countEq {α : Type} [DecidableEq α] (l : List α) (a : α) : Nat :=
  l.countP (fun x => decide (x = a))

/-- `df.groupby(keys).size()`: pandas drops rows with any NA key
(default `dropna=True`), then counts the occurrences of each remaining key
tuple.  The output order of the groups is irrelevant to the claims. -/
def groupby_size (keys : List String) (rows : List Row) : List (List Cell × Nat) :=
  let ks := (rows.filter (fun r => (keyOf keys r).all (fun v => !isNA v))).map (keyOf keys)
  ks.dedup.map (fun k => (k, countEq ks k))

/-- The count table of `open_stacked_chart`:
`df.groupby(["Priority", status_col]).size()`. -/
def open_stacked_counts (df : Frame) (status_col : String) : List (List Cell × Nat) :=
  groupby_size ["Priority", status_col] df.rows

/-- The count table of `assigned_to_bars_stacked_by_priority`:
`df_all.groupby(["Assigned To", "Priority"]).size()`. -/
def assigned_to_counts (df_all : Frame) : List (List Cell × Nat) :=
  groupby_size ["Assigned To", "Priority"] df_all.rows

/-- A calendar date (pandas Timestamp at day resolution). -/
structure Date where
  year : Int
  month : Nat
  day : Nat
  deriving DecidableEq, Repr

/-- `dt.to_period("M").dt.to_timestamp()`: truncation to the first day of
the month. -/
def monthStart (t : Date) : Date := { year := t.year, month := t.month, day := 1 }

/-- The per-sheet aggregation of `monthly_trend_chart` from
src/pages/tickets_page.py.  `pd.to_datetime(..., errors="coerce")` is an
external pandas collaborator; it is modelled by the `parse` parameter, with
`none` standing for NaT (missing or unparseable).  A sheet without the
"Date of the Work" column is skipped (`none`); otherwise rows whose date
fails to parse are dropped, the rest are bucketed by `monthStart`, and each
bucket is counted. -/
def monthly_trend_counts (parse : Cell → Option Date) (df : Frame) :
    Option (List (Date × Nat)) :=
  if df.cols.contains "Date of the Work" then
    let months := (df.rows.filterMap (fun r => parse (rowGet r "Date of the Work"))).map
      monthStart
    some (months.dedup.map (fun m => (m, countEq months m)))
  else
    none

/-- Witness input for C3: one classifiable open row and one row whose
Priority fails to classify (and is therefore dropped). -/
def c3Frame : Frame :=
  { cols := ["Priority", "Status"],
    rows := [[("Priority", Cell.text "High"), ("Status", Cell.text "Open")],
             [("Priority", Cell.text "???"), ("Status", Cell.text "Open")]] }

/-- C7 counterexample input: one open high-priority ticket whose
Assigned-To cell is blank, hence null after normalization. -/
def c7Frame : Frame :=
  { cols := ["Priority", "Status", "Assigned To"],
    rows := [[("Priority", Cell.text "High"), ("Status", Cell.text "Open"),
              ("Assigned To", Cell.text "")]] }

/-- The open subset produced from `c7Frame`: its one row with normalized
fields, the blank Assigned-To having become null. -/
def c7Filtered : Frame :=
  { cols := ["Priority", "Status", "Assigned To"],
    rows := [[("Priority", Cell.text "High"), ("Status", Cell.text "Open"),
              ("Assigned To", Cell.null)]] }

/-- Witness input for C9: a simple lookup-table parser for two January dates
and one unparseable text. -/
def c9Parse : Cell → Option Date :=
  fun c =>
    match c with
    | Cell.text "2024-01-15" => some { year := 2024, month := 1, day := 15 }
    | Cell.text "2024-01-20" => some { year := 2024, month := 1, day := 20 }
    | _ => none

/-- Witness input for C9: three rows, two with parseable January dates and
one with junk in the date column. -/
def c9Frame : Frame :=
  { cols := ["Date of the Work"],
    rows := [[("Date of the Work", Cell.text "2024-01-15")],
             [("Date of the Work", Cell.text "2024-01-20")],
             [("Date of the Work", Cell.text "junk")]] }

end Tickets

namespace Banks

lemma rowScore_den_pos (row : List Cell) : 0 < (rowScore row).den := by
  unfold rowScore
  have h : 0 < max 1 (nonBlank row).length := by omega
  simp only []
  positivity

lemma val_rowScore (row : List Cell) : (rowScore row).val = scoreQ row := by
  unfold Score.val rowScore scoreQ
  have h : (0 : ℚ) < ((max 1 (nonBlank row).length : Nat) : ℚ) := by
    have : 0 < max 1 (nonBlank row).length := by omega
    exact_mod_cast this
  push_cast
  field_simp
  ring

lemma bgt_iff (a b : Score) (ha : 0 < a.den) (hb : 0 < b.den) :
    a.bgt b = true ↔ b.val < a.val := by
  unfold Score.bgt Score.val
  rw [decide_eq_true_iff]
  rw [div_lt_div_iff₀ (by exact_mod_cast hb) (by exact_mod_cast ha)]
  constructor
  · intro h; exact_mod_cast h
  · intro h; exact_mod_cast h

lemma scoreQ_nonneg (row : List Cell) : 0 ≤ scoreQ row := by
  unfold scoreQ
  have h : (0 : ℚ) < ((max 1 (nonBlank row).length : Nat) : ℚ) := by
    have : 0 < max 1 (nonBlank row).length := by omega
    exact_mod_cast this
  positivity

lemma detectGo_spec (l : List (List Cell)) (i bi : Nat) (bs : Score) (hbs : 0 < bs.den) :
    (detectGo l i bi bs = bi ∧
      ∀ k, k < l.length → 2 ≤ (nonBlank (l.getD k [])).length →
        scoreQ (l.getD k []) ≤ bs.val) ∨
    (∃ k, k < l.length ∧ detectGo l i bi bs = i + k ∧
      2 ≤ (nonBlank (l.getD k [])).length ∧
      bs.val < scoreQ (l.getD k []) ∧
      (∀ j, j < l.length → 2 ≤ (nonBlank (l.getD j [])).length →
        scoreQ (l.getD j []) ≤ scoreQ (l.getD k [])) ∧
      (∀ j, j < k → 2 ≤ (nonBlank (l.getD j [])).length →
        scoreQ (l.getD j []) < scoreQ (l.getD k []))) := by
  induction l generalizing i bi bs with
  | nil =>
    left
    refine ⟨rfl, ?_⟩
    intro k hk
    simp at hk
  | cons row rest ih =>
    by_cases hq : (nonBlank row).length < 2
    · rcases ih (i + 1) bi bs hbs with ⟨hret, hall⟩ | ⟨k, hk, hret, hq2, hgt, hall, hfirst⟩
      · left
        refine ⟨by simp only [detectGo, if_pos hq]; exact hret, ?_⟩
        intro k hk hqual
        match k with
        | 0 =>
          rw [List.getD_cons_zero] at hqual
          omega
        | k + 1 =>
          rw [List.getD_cons_succ] at hqual ⊢
          exact hall k (by simpa using hk) hqual
      · right
        refine ⟨k + 1, by simpa using hk, ?_, ?_, ?_, ?_, ?_⟩
        · simp only [detectGo, if_pos hq]
          rw [hret]
          omega
        · rw [List.getD_cons_succ]; exact hq2
        · rw [List.getD_cons_succ]; exact hgt
        · intro j hj hqual
          rw [List.getD_cons_succ]
          match j with
          | 0 =>
            rw [List.getD_cons_zero] at hqual
            omega
          | j + 1 =>
            rw [List.getD_cons_succ] at hqual ⊢
            exact hall j (by simpa using hj) hqual
        · intro j hj hqual
          rw [List.getD_cons_succ]
          match j with
          | 0 =>
            rw [List.getD_cons_zero] at hqual
            omega
          | j + 1 =>
            rw [List.getD_cons_succ] at hqual ⊢
            exact hfirst j (by omega) hqual
    · by_cases hb : (rowScore row).bgt bs = true
      · have hdp := rowScore_den_pos row
        have hgtQ : bs.val < scoreQ row := by
          rw [← val_rowScore]
          exact (bgt_iff _ _ hdp hbs).mp hb
        rcases ih (i + 1) i (rowScore row) hdp with
          ⟨hret, hall⟩ | ⟨k, hk, hret, hq2, hgt, hall, hfirst⟩
        · rw [val_rowScore] at hall
          right
          refine ⟨0, by simp, ?_, ?_, ?_, ?_, ?_⟩
          · simp only [detectGo, if_neg hq, if_pos hb]
            rw [hret]
            omega
          · rw [List.getD_cons_zero]; omega
          · rw [List.getD_cons_zero]; exact hgtQ
          · intro j hj hqual
            rw [List.getD_cons_zero]
            match j with
            | 0 =>
              rw [List.getD_cons_zero]
            | j + 1 =>
              rw [List.getD_cons_succ] at hqual ⊢
              exact hall j (by simpa using hj) hqual
          · intro j hj hqual
            omega
        · rw [val_rowScore] at hgt
          right
          refine ⟨k + 1, by simpa using hk, ?_, ?_, ?_, ?_, ?_⟩
          · simp only [detectGo, if_neg hq, if_pos hb]
            rw [hret]
            omega
          · rw [List.getD_cons_succ]; exact hq2
          · rw [List.getD_cons_succ]; exact lt_trans hgtQ hgt
          · intro j hj hqual
            rw [List.getD_cons_succ]
            match j with
            | 0 =>
              rw [List.getD_cons_zero] at hqual ⊢
              exact le_of_lt hgt
            | j + 1 =>
              rw [List.getD_cons_succ] at hqual ⊢
              exact hall j (by simpa using hj) hqual
          · intro j hj hqual
            rw [List.getD_cons_succ]
            match j with
            | 0 =>
              rw [List.getD_cons_zero] at hqual ⊢
              exact hgt
            | j + 1 =>
              rw [List.getD_cons_succ] at hqual ⊢
              exact hfirst j (by omega) hqual
      · have hleQ : scoreQ row ≤ bs.val := by
          rw [← val_rowScore]
          by_contra hcon
          push_neg at hcon
          exact hb ((bgt_iff _ _ (rowScore_den_pos row) hbs).mpr hcon)
        rcases ih (i + 1) bi bs hbs with ⟨hret, hall⟩ | ⟨k, hk, hret, hq2, hgt, hall, hfirst⟩
        · left
          refine ⟨by simp only [detectGo, if_neg hq, if_neg hb]; exact hret, ?_⟩
          intro k hk hqual
          match k with
          | 0 =>
            rw [List.getD_cons_zero] at hqual ⊢
            exact hleQ
          | k + 1 =>
            rw [List.getD_cons_succ] at hqual ⊢
            exact hall k (by simpa using hk) hqual
        · right
          refine ⟨k + 1, by simpa using hk, ?_, ?_, ?_, ?_, ?_⟩
          · simp only [detectGo, if_neg hq, if_neg hb]
            rw [hret]
            omega
          · rw [List.getD_cons_succ]; exact hq2
          · rw [List.getD_cons_succ]; exact hgt
          · intro j hj hqual
            rw [List.getD_cons_succ]
            match j with
            | 0 =>
              rw [List.getD_cons_zero] at hqual ⊢
              exact le_of_lt (lt_of_le_of_lt hleQ hgt)
            | j + 1 =>
              rw [List.getD_cons_succ] at hqual ⊢
              exact hall j (by simpa using hj) hqual
          · intro j hj hqual
            rw [List.getD_cons_succ]
            match j with
            | 0 =>
              rw [List.getD_cons_zero] at hqual ⊢
              exact lt_of_le_of_lt hleQ hgt
            | j + 1 =>
              rw [List.getD_cons_succ] at hqual ⊢
              exact hfirst j (by omega) hqual

/-- C1: `detect_header_row` skips rows with fewer than 2 non-blank cells,
returns the index (within the scan window) of the row with the strictly
highest score `1.5*non_blank + 2.0*str_like + 3.0*uniqueness`, ties going to
the first such row, returns 0 when no row qualifies, and selects index 1 on
the spec's three-row example. -/
theorem detect_header_row_spec (rows : List (List Cell)) (scan_rows : Nat) :
    ((∀ k, k < (rows.take scan_rows).length →
        (nonBlank ((rows.take scan_rows).getD k [])).length < 2) →
      detect_header_row rows scan_rows = 0) ∧
    ((∃ k, k < (rows.take scan_rows).length ∧
        2 ≤ (nonBlank ((rows.take scan_rows).getD k [])).length) →
      (detect_header_row rows scan_rows < (rows.take scan_rows).length ∧
       2 ≤ (nonBlank ((rows.take scan_rows).getD
          (detect_header_row rows scan_rows) [])).length ∧
       (∀ j, j < (rows.take scan_rows).length →
          2 ≤ (nonBlank ((rows.take scan_rows).getD j [])).length →
          scoreQ ((rows.take scan_rows).getD j [])
            ≤ scoreQ ((rows.take scan_rows).getD (detect_header_row rows scan_rows) [])) ∧
       (∀ j, j < detect_header_row rows scan_rows →
          2 ≤ (nonBlank ((rows.take scan_rows).getD j [])).length →
          scoreQ ((rows.take scan_rows).getD j [])
            < scoreQ ((rows.take scan_rows).getD (detect_header_row rows scan_rows) [])))) ∧
    detect_header_row headerExampleRows 80 = 1 := by
  have hden : (0 : Int) < (⟨-1, 1⟩ : Score).den := by decide
  have hval : (⟨-1, 1⟩ : Score).val = -1 := by
    unfold Score.val
    norm_num
  refine ⟨?_, ?_, by decide⟩
  · intro hnone
    rcases detectGo_spec (rows.take scan_rows) 0 0 ⟨-1, 1⟩ hden with
      ⟨hret, _⟩ | ⟨k, hk, _, hq2, _, _, _⟩
    · exact hret
    · have := hnone k hk
      omega
  · rintro ⟨k0, hk0, hq0⟩
    rcases detectGo_spec (rows.take scan_rows) 0 0 ⟨-1, 1⟩ hden with
      ⟨hret, hall⟩ | ⟨k, hk, hret, hq2, hgt, hall, hfirst⟩
    · exfalso
      have h1 := hall k0 hk0 hq0
      rw [hval] at h1
      have h2 := scoreQ_nonneg ((rows.take scan_rows).getD k0 [])
      linarith
    · have hd : detect_header_row rows scan_rows = k := by
        unfold detect_header_row
        rw [hret]
        omega
      rw [hd]
      exact ⟨hk, hq2, hall, hfirst⟩

/-- Witness for C1 at the spec's concrete example: the detector picks row 1,
which is in range and qualifies. -/
theorem detect_header_row_spec_witness :
    detect_header_row headerExampleRows 80 = 1 ∧
    detect_header_row headerExampleRows 80 < (headerExampleRows.take 80).length ∧
    2 ≤ (nonBlank ((headerExampleRows.take 80).getD
        (detect_header_row headerExampleRows 80) [])).length := by
  have h := detect_header_row_spec headerExampleRows 80
  have h2 := h.2.1 ⟨1, by decide, by decide⟩
  exact ⟨h.2.2, h2.1, h2.2.1⟩

/-- C4: the blank predicate satisfies the spec's table, and in general a cell
is blank iff it is missing (`None`), a float NaN, or its stripped, lowercased
string form is "", "nan" or "none". -/
theorem is_blank_spec :
    _is_blank Cell.null = true ∧
    _is_blank Cell.nan = true ∧
    _is_blank (Cell.text "") = true ∧
    _is_blank (Cell.text "nan") = true ∧
    _is_blank (Cell.text "None") = true ∧
    _is_blank (Cell.text "0") = false ∧
    _is_blank (Cell.text "  ") = true ∧
    (∀ v : Cell, _is_blank v = true ↔
      (v = Cell.null ∨ v = Cell.nan ∨
       lowerStr (trimStr (str_of v)) = "" ∨
       lowerStr (trimStr (str_of v)) = "nan" ∨
       lowerStr (trimStr (str_of v)) = "none")) := by
  have hlow : ∀ s : String, lowerStr s = "" ↔ s = "" := by
    intro s
    constructor
    · intro h
      have hd : s.data.map Char.toLower = [] := congrArg String.data h
      rcases List.map_eq_nil_iff.mp hd with h0
      cases s
      simp_all
    · intro h
      rw [h]
      rfl
  refine ⟨rfl, rfl, by decide, by decide, by decide, by decide, by decide, ?_⟩
  intro v
  match v with
  | Cell.null => simp [_is_blank]
  | Cell.nan => simp [_is_blank]
  | Cell.text s =>
    simp only [_is_blank, Bool.or_eq_true, beq_iff_eq, str_of]
    rw [hlow (trimStr s)]
    simp [or_assoc]
  | Cell.num s =>
    simp only [_is_blank, Bool.or_eq_true, beq_iff_eq, str_of]
    rw [hlow (trimStr s)]
    simp [or_assoc]

/-- C5: the column resolver returns the first column, in left-to-right order,
whose stripped lowercased name contains some fallback keyword, and `none`
when no column matches; on the spec's examples it returns "Bank Name" for
fallbacks ["bank", "banco"] and `none` for ["zzz"]. -/
theorem find_required_col_spec :
    (∀ cols fallbacks c, find_required_col cols fallbacks = some c →
      ∃ pre suf, cols = pre ++ c :: suf ∧
        (fallbacks.any (fun k => containsStr (lowerStr (trimStr c)) k)) = true ∧
        ∀ c2 ∈ pre, (fallbacks.any (fun k => containsStr (lowerStr (trimStr c2)) k)) = false) ∧
    (∀ cols fallbacks, find_required_col cols fallbacks = none ↔
      ∀ c ∈ cols, (fallbacks.any (fun k => containsStr (lowerStr (trimStr c)) k)) = false) ∧
    find_required_col ["Bank Name", "Site Address", "Notes"] ["bank", "banco"]
      = some "Bank Name" ∧
    find_required_col ["Bank Name", "Site Address", "Notes"] ["zzz"] = none := by
  refine ⟨?_, ?_, by decide, by decide⟩
  · intro cols fallbacks c h
    induction cols with
    | nil => simp [find_required_col] at h
    | cons c0 t ih =>
      rw [find_required_col] at h
      by_cases h0 : (fallbacks.any (fun k => containsStr (lowerStr (trimStr c0)) k)) = true
      · rw [@List.find?_cons_of_pos String
          (fun c => fallbacks.any fun k => containsStr (lowerStr (trimStr c)) k) c0 t h0] at h
        have hc0 : c0 = c := by injection h
        subst hc0
        refine ⟨[], t, rfl, h0, ?_⟩
        intro c2 hc2
        simp at hc2
      · rw [@List.find?_cons_of_neg String
          (fun c => fallbacks.any fun k => containsStr (lowerStr (trimStr c)) k) c0 t h0] at h
        obtain ⟨pre, suf, hsplit, hc, hpre⟩ := ih h
        refine ⟨c0 :: pre, suf, by rw [hsplit]; rfl, hc, ?_⟩
        intro c2 hc2
        rcases List.mem_cons.mp hc2 with h2 | h2
        · rw [h2]
          simpa using h0
        · exact hpre c2 h2
  · intro cols fallbacks
    rw [find_required_col, List.find?_eq_none]
    constructor
    · intro h c hc
      simpa using h c hc
    · intro h c hc
      simp [h c hc]

/-- Witness for C5: on the concrete column list the "bank" fallback matches
the first column and no earlier column matches. -/
theorem find_required_col_spec_witness :
    ∃ pre suf, (["Bank Name", "Site Address", "Notes"] : List String)
        = pre ++ "Bank Name" :: suf ∧
      ((["bank", "banco"] : List String).any
        (fun k => containsStr (lowerStr (trimStr "Bank Name")) k)) = true ∧
      ∀ c2 ∈ pre, ((["bank", "banco"] : List String).any
        (fun k => containsStr (lowerStr (trimStr c2)) k)) = false :=
  (find_required_col_spec).1 ["Bank Name", "Site Address", "Notes"] ["bank", "banco"]
    "Bank Name" (by decide)

/-- C6 is false as stated: `dropna` removes only all-NA rows and columns,
while the uniform blank predicate also counts whitespace and "nan"/"none"
text as blank.  A data row of whitespace cells survives the load, and every
cell of that surviving row is blank per the uniform predicate. -/
theorem read_sheet_blank_row_cex :
    ((read_sheet_with_detected_header [Cell.text "A", Cell.text "B"]
        [[Cell.text " ", Cell.text " "], [Cell.text "x", Cell.text "y"]]).rows.any
      (fun r => !r.isEmpty && r.all _is_blank)) = true := by decide

lemma head_dropWhile_not {α : Type} (p : α → Bool) (l : List α) :
    ∀ a, (l.dropWhile p).head? = some a → p a = false := by
  induction l with
  | nil =>
    intro a h
    simp [List.dropWhile] at h
  | cons x t ih =>
    intro a h
    rw [List.dropWhile_cons] at h
    by_cases hp : p x = true
    · rw [if_pos hp] at h
      exact ih a h
    · rw [if_neg hp] at h
      simp only [List.head?_cons, Option.some.injEq] at h
      rw [← h]
      simpa using hp

lemma dropWhile_eq_self_of_head {α : Type} (p : α → Bool) (l : List α)
    (h : ∀ a, l.head? = some a → p a = false) : l.dropWhile p = l := by
  cases l with
  | nil => rfl
  | cons x t =>
    rw [List.dropWhile_cons, if_neg]
    simp [h x rfl]

lemma trim_aux (m : List Char)
    (hm : ∀ a, m.head? = some a → Char.isWhitespace a = false) :
    ((((m.reverse.dropWhile Char.isWhitespace).reverse).dropWhile
        Char.isWhitespace).reverse.dropWhile Char.isWhitespace).reverse
      = (m.reverse.dropWhile Char.isWhitespace).reverse := by
  have huh : ∀ a, (m.reverse.dropWhile Char.isWhitespace).head? = some a →
      Char.isWhitespace a = false := head_dropWhile_not _ _
  have hpre : (m.reverse.dropWhile Char.isWhitespace).reverse <+: m := by
    have hs : m.reverse.dropWhile Char.isWhitespace <:+ m.reverse :=
      List.dropWhile_suffix _
    have h2 := List.reverse_prefix.mpr hs
    simpa using h2
  have hthead : ∀ a, ((m.reverse.dropWhile Char.isWhitespace).reverse.head? = some a) →
      Char.isWhitespace a = false := by
    intro a ha
    obtain ⟨sfx, hsplit⟩ := hpre
    apply hm
    rw [← hsplit]
    cases hrev : (m.reverse.dropWhile Char.isWhitespace).reverse with
    | nil =>
      rw [hrev] at ha
      simp at ha
    | cons x t =>
      rw [hrev] at ha
      simp only [List.head?_cons, Option.some.injEq] at ha
      simp [ha]
  rw [dropWhile_eq_self_of_head _ _ hthead, List.reverse_reverse,
    dropWhile_eq_self_of_head _ _ huh]

lemma trimChars_idem (l : List Char) : trimChars (trimChars l) = trimChars l := by
  unfold trimChars
  exact trim_aux (l.dropWhile Char.isWhitespace) (head_dropWhile_not _ _)

lemma trimStr_idem (s : String) : trimStr (trimStr s) = trimStr s := by
  unfold trimStr
  exact congrArg String.mk (trimChars_idem s.data)

/-- C6 amended: after the load, no surviving row is entirely NA
(missing/NaN), every surviving column has at least one non-NA cell among the
surviving rows, and every column name is a trimmed string (no leading or
trailing whitespace), since the code applies str(c).strip() to the
pandas-assigned column labels. -/
theorem read_sheet_spec_amended (labels : List Cell) (data : List (List Cell)) :
    (∀ r ∈ (read_sheet_with_detected_header labels data).rows,
      r.any (fun v => !isNA v) = true) ∧
    (∀ j, j < (read_sheet_with_detected_header labels data).cols.length →
      ∃ r ∈ (read_sheet_with_detected_header labels data).rows,
        isNA (r.getD j Cell.nan) = false) ∧
    (∀ c ∈ (read_sheet_with_detected_header labels data).cols, trimStr c = c) := by
  refine ⟨?_, ?_, ?_⟩
  · intro r hr
    exact (List.mem_filter.mp hr).2
  · intro j hj
    have hjk : j < (keptCols labels data).length := by
      simpa [read_sheet_with_detected_header] using hj
    have hkmem : (keptCols labels data).get ⟨j, hjk⟩ ∈ keptCols labels data :=
      List.get_mem _ _ hjk
    have hmem2 : (keptCols labels data).get ⟨j, hjk⟩ ∈ (List.range labels.length).filter
        (fun j2 => !(data.all (fun r => isNA (r.getD j2 Cell.nan)))) := hkmem
    have hpred := (List.mem_filter.mp hmem2).2
    have hall : data.all
        (fun r => isNA (r.getD ((keptCols labels data).get ⟨j, hjk⟩) Cell.nan)) = false := by
      simpa using hpred
    obtain ⟨rd, hrd, hna⟩ := List.all_eq_false.mp hall
    refine ⟨(keptCols labels data).map (fun jo => rd.getD jo Cell.nan), ?_, ?_⟩
    · apply List.mem_filter.mpr
      refine ⟨List.mem_map_of_mem _ hrd, ?_⟩
      apply List.any_eq_true.mpr
      exact ⟨rd.getD ((keptCols labels data).get ⟨j, hjk⟩) Cell.nan,
        List.mem_map_of_mem _ hkmem, by simpa using hna⟩
    · have hlen : j < ((keptCols labels data).map (fun jo => rd.getD jo Cell.nan)).length := by
        simpa using hjk
      rw [List.getD_eq_getElem _ _ hlen, List.getElem_map]
      simpa using hna
  · intro c hc
    simp only [read_sheet_with_detected_header] at hc
    obtain ⟨j, _, hcj⟩ := List.mem_map.mp hc
    rw [← hcj]
    exact trimStr_idem _

/-- Witness for C6 (amended) on a concrete sheet: an all-NA first column is
dropped, the surviving row is not all-NA, its kept cell is non-NA, and the
surviving column name "B" is trimmed. -/
theorem read_sheet_spec_amended_witness :
    (([Cell.text "y"] : List Cell).any (fun v => !isNA v) = true) ∧
    (∃ r ∈ (read_sheet_with_detected_header [Cell.text " A", Cell.text "B"]
        [[Cell.null, Cell.text "y"]]).rows, isNA (r.getD 0 Cell.nan) = false) ∧
    trimStr "B" = "B" := by
  have h := read_sheet_spec_amended [Cell.text " A", Cell.text "B"] [[Cell.null, Cell.text "y"]]
  exact ⟨h.1 [Cell.text "y"] (by decide), h.2.1 0 (by decide), h.2.2 "B" (by decide)⟩


end Banks

namespace Tickets

lemma rowGet_rowSet_self (r : Row) (c : String) (v : Cell) :
    rowGet (rowSet r c v) c = v := by
  unfold rowGet rowSet
  have hpf : ((fun q : String × Cell => q.1 == c) ∘
      (fun p : String × Cell => if p.1 == c then (p.1, v) else p))
      = fun p : String × Cell => p.1 == c := by
    funext p
    by_cases hp : p.1 = c <;> simp [hp]
  by_cases ha : r.any (fun p => p.1 == c) = true
  · rw [if_pos ha, List.find?_map, hpf]
    obtain ⟨q, hq, hqc⟩ := List.any_eq_true.mp ha
    cases hf : r.find? (fun p => p.1 == c) with
    | none =>
      exact absurd (List.find?_eq_none.mp hf q hq) (by simp [hqc])
    | some q2 =>
      have hq2 := List.find?_some hf
      simp only [beq_iff_eq] at hq2
      simp [hq2]
  · rw [if_neg ha, List.find?_append]
    have h1 : r.find? (fun p => p.1 == c) = none := by
      rw [List.find?_eq_none]
      intro x hx hxc
      exact ha (List.any_eq_true.mpr ⟨x, hx, hxc⟩)
    rw [h1]
    simp [List.find?]

lemma rowGet_rowSet_ne (r : Row) (c c2 : String) (v : Cell) (h : c2 ≠ c) :
    rowGet (rowSet r c v) c2 = rowGet r c2 := by
  unfold rowGet rowSet
  have hpf : ((fun q : String × Cell => q.1 == c2) ∘
      (fun p : String × Cell => if p.1 == c then (p.1, v) else p))
      = fun p : String × Cell => p.1 == c2 := by
    funext p
    by_cases hp : p.1 = c <;> simp [hp]
  by_cases ha : r.any (fun p => p.1 == c) = true
  · rw [if_pos ha, List.find?_map, hpf]
    cases hf : r.find? (fun p => p.1 == c2) with
    | none => simp
    | some q =>
      have hq2 := List.find?_some hf
      have hqc : q.1 ≠ c := by
        have he : q.1 = c2 := by simpa using hq2
        rw [he]
        exact h
      simp [hqc]
  · rw [if_neg ha, List.find?_append]
    have h2 : [(c, v)].find? (fun p => p.1 == c2) = none := by
      rw [List.find?_eq_none]
      intro x hx
      have hx' : x = (c, v) := by simpa using hx
      rw [hx']
      simpa using Ne.symm h
    rw [h2]
    cases r.find? (fun p => p.1 == c2) <;> rfl

lemma clean_of_not_blank (v : Cell) (h : Banks._is_blank v = false) :
    _clean_text v = some (trimStr (str_of v)) := by
  match v with
  | Cell.null => simp [Banks._is_blank] at h
  | Cell.nan => simp [Banks._is_blank] at h
  | Cell.text s =>
    simp only [Banks._is_blank, str_of] at h
    simp only [_clean_text, str_of]
    rw [if_neg]
    intro hc
    rcases (by simpa [or_assoc] using hc :
        trimStr s = "" ∨ trimStr s = "nan" ∨ trimStr s = "None")
      with h1 | h1 | h1
    · simp [h1] at h
    · rw [h1] at h
      have e : lowerStr "nan" = "nan" := by decide
      rw [e] at h
      simp at h
    · rw [h1] at h
      have e : lowerStr "None" = "none" := by decide
      rw [e] at h
      simp at h
  | Cell.num s =>
    simp only [Banks._is_blank, str_of] at h
    simp only [_clean_text, str_of]
    rw [if_neg]
    intro hc
    rcases (by simpa [or_assoc] using hc :
        trimStr s = "" ∨ trimStr s = "nan" ∨ trimStr s = "None")
      with h1 | h1 | h1
    · simp [h1] at h
    · rw [h1] at h
      have e : lowerStr "nan" = "nan" := by decide
      rw [e] at h
      simp at h
    · rw [h1] at h
      have e : lowerStr "None" = "none" := by decide
      rw [e] at h
      simp at h

/-- C2: ticket-status classification is substring-based, case-insensitive
and first-match-wins in the order Closed, In Progress, Open, Other, for
every non-blank cell; "Closed - done" and "closed" classify to Closed and
"re-opened" classifies to Open. -/
theorem normalize_status_spec :
    (∀ v : Cell, Banks._is_blank v = false →
      normalize_status v =
        (if containsStr (lowerStr (trimStr (str_of v))) "closed" then Cell.text "Closed"
         else if containsStr (lowerStr (trimStr (str_of v))) "progress" then
           Cell.text "In Progress"
         else if containsStr (lowerStr (trimStr (str_of v))) "open" then Cell.text "Open"
         else Cell.text "Other")) ∧
    normalize_status (Cell.text "Closed - done") = Cell.text "Closed" ∧
    normalize_status (Cell.text "closed") = Cell.text "Closed" ∧
    normalize_status (Cell.text "re-opened") = Cell.text "Open" := by
  refine ⟨?_, by decide, by decide, by decide⟩
  intro v h
  unfold normalize_status
  rw [clean_of_not_blank v h]

/-- Witness for C2: "In Progress - waiting on vendor" is non-blank and is
classified by the substring cascade. -/
theorem normalize_status_spec_witness :
    Banks._is_blank (Cell.text "In Progress - waiting on vendor") = false ∧
    normalize_status (Cell.text "In Progress - waiting on vendor")
      = Cell.text "In Progress" := by
  refine ⟨by decide, ?_⟩
  have h := (normalize_status_spec).1 (Cell.text "In Progress - waiting on vendor") (by decide)
  rw [h]
  decide

lemma prep_missing (df : Frame) (sc : String)
    (h : df.cols.contains sc = false) :
    _prep_common df sc = { cols := df.cols, rows := [] } := by
  have hm : sc ∉ df.cols := by simpa using h
  unfold _prep_common
  simp [hm]

lemma filter_not_closed_missing (df : Frame) (sc : String)
    (h : df.cols.contains sc = false) :
    filter_not_closed df sc = none := by
  have hm : sc ∉ df.cols := by simpa using h
  simp only [filter_not_closed, prep_missing df sc h]
  simp [hm]

lemma filter_closed_missing (df : Frame) (sc : String)
    (h : df.cols.contains sc = false) :
    filter_closed df sc = none := by
  have hm : sc ∉ df.cols := by simpa using h
  simp only [filter_closed, prep_missing df sc h]
  simp [hm]

/-- C8 is wrong about the code: with the status column absent,
`_prep_common` does return an empty slice, but that slice still lacks the
column, so the subsequent `d[d[status_col] != "Closed"]` and
`d[d[status_col] == "Closed"]` column selections raise `KeyError`
(modelled `none`) — the failure is a crash, not the claimed soft empty
subsets. -/
theorem split_missing_column_raises (df : Frame) (sc : String)
    (h : df.cols.contains sc = false) :
    _prep_common df sc = { cols := df.cols, rows := [] } ∧
    filter_not_closed df sc = none ∧
    filter_closed df sc = none :=
  ⟨prep_missing df sc h, filter_not_closed_missing df sc h, filter_closed_missing df sc h⟩

/-- Witness for C8 on a concrete one-row frame without the "Status" column:
the prep result is empty but both filters hit the KeyError path. -/
theorem split_missing_column_raises_witness :
    _prep_common { cols := ["A"], rows := [[("A", Cell.text "x")]] } "Status"
      = { cols := ["A"], rows := [] } ∧
    filter_not_closed { cols := ["A"], rows := [[("A", Cell.text "x")]] } "Status" = none ∧
    filter_closed { cols := ["A"], rows := [[("A", Cell.text "x")]] } "Status" = none :=
  split_missing_column_raises { cols := ["A"], rows := [[("A", Cell.text "x")]] } "Status"
    (by decide)

lemma mem_prepCols2 (df : Frame) (c : String) (h : c ∈ df.cols) :
    c ∈ prepCols2 df := by
  have h1 : c ∈ prepCols1 df := by
    unfold prepCols1
    by_cases hp : prepHasP df = true <;> simp [hp, h]
  unfold prepCols2
  by_cases ha : prepHasA df = true <;> simp [ha, h1]

lemma prep_cols_of_contains (df : Frame) (sc : String)
    (hsc : df.cols.contains sc = true) :
    (_prep_common df sc).cols = prepCols2 df := by
  have hm : sc ∈ df.cols := by simpa using hsc
  unfold _prep_common
  simp [hm]

lemma prep_contains_of_contains (df : Frame) (sc : String)
    (hsc : df.cols.contains sc = true) :
    (_prep_common df sc).cols.contains sc = true := by
  rw [prep_cols_of_contains df sc hsc]
  have hm : sc ∈ df.cols := by simpa using hsc
  exact List.elem_iff.mpr (mem_prepCols2 df sc hm)

lemma filter_not_closed_of_contains (df : Frame) (sc : String)
    (hsc : df.cols.contains sc = true) :
    filter_not_closed df sc
      = some { cols := prepCols2 df,
               rows := (_prep_common df sc).rows.filter
                 (fun r => !(rowGet r sc == Cell.text "Closed")) } := by
  simp only [filter_not_closed, prep_contains_of_contains df sc hsc, if_true]
  rw [prep_cols_of_contains df sc hsc]

lemma filter_closed_of_contains (df : Frame) (sc : String)
    (hsc : df.cols.contains sc = true) :
    filter_closed df sc
      = some { cols := prepCols2 df,
               rows := (_prep_common df sc).rows.filter
                 (fun r => rowGet r sc == Cell.text "Closed") } := by
  simp only [filter_closed, prep_contains_of_contains df sc hsc, if_true]
  rw [prep_cols_of_contains df sc hsc]

/-- C10: when the status column exists but there is no "Priority" column,
`_prep_common` fills Priority with null for every row and the strict
null-drop then removes all rows, so both splits succeed with empty row
sets. -/
theorem split_no_priority_column (df : Frame) (sc : String)
    (hsc : df.cols.contains sc = true)
    (hP : df.cols.contains "Priority" = false) :
    filter_not_closed df sc = some { cols := prepCols2 df, rows := [] } ∧
    filter_closed df sc = some { cols := prepCols2 df, rows := [] } := by
  have hne : ("Priority" : String) ≠ sc := by
    intro he
    rw [← he] at hsc
    rw [hsc] at hP
    exact absurd hP (by simp)
  have hprep : (_prep_common df sc).rows = [] := by
    unfold _prep_common
    rw [hsc]
    simp only [if_true]
    rw [List.filter_eq_nil_iff]
    intro r2 hr2
    obtain ⟨r, hr, rfl⟩ := List.mem_map.mp hr2
    have hPfalse : prepHasP df = false := by simpa [prepHasP] using hP
    have hgetP : rowGet (prepRow (prepHasP df) (prepHasA df) sc r) "Priority" = Cell.null := by
      unfold prepRow
      rw [hPfalse]
      simp only [Bool.false_eq_true, if_false]
      have h1 := rowGet_rowSet_self r "Priority" Cell.null
      have h2 : rowGet (rowSet (rowSet r "Priority" Cell.null) sc
          (normalize_status (rowGet (rowSet r "Priority" Cell.null) sc))) "Priority"
          = Cell.null := by
        rw [rowGet_rowSet_ne _ _ _ _ hne]
        exact h1
      cases hA : prepHasA df with
      | true =>
        simp only [if_true]
        rw [rowGet_rowSet_ne _ _ _ _ (by decide : ("Priority" : String) ≠ "Assigned To")]
        exact h2
      | false =>
        simp only [Bool.false_eq_true, if_false]
        rw [rowGet_rowSet_ne _ _ _ _ (by decide : ("Priority" : String) ≠ "Assigned To")]
        exact h2
    simp [prepKeep, hgetP, isNA]
  refine ⟨?_, ?_⟩
  · rw [filter_not_closed_of_contains df sc hsc, hprep]
    rfl
  · rw [filter_closed_of_contains df sc hsc, hprep]
    rfl

/-- Witness for C10 on a concrete frame with a Status column but no
Priority column: both splits return a frame with the extended columns and
no rows. -/
theorem split_no_priority_column_witness :
    filter_not_closed { cols := ["Status"], rows := [[("Status", Cell.text "Open")]] }
      "Status" = some { cols := ["Status", "Priority", "Assigned To"], rows := [] } ∧
    filter_closed { cols := ["Status"], rows := [[("Status", Cell.text "Open")]] }
      "Status" = some { cols := ["Status", "Priority", "Assigned To"], rows := [] } := by
  have h := split_no_priority_column
    { cols := ["Status"], rows := [[("Status", Cell.text "Open")]] } "Status"
    (by decide) (by decide)
  exact ⟨h.1.trans (by decide), h.2.trans (by decide)⟩

lemma count_filter_split {α : Type} [BEq α] (l : List α) (p : α → Bool) (a : α) :
    (l.filter p).count a + (l.filter (fun x => !p x)).count a = l.count a := by
  induction l with
  | nil => rfl
  | cons x t ih =>
    by_cases hp : p x = true
    · rw [List.filter_cons_of_pos hp, List.filter_cons_of_neg (by simp [hp]),
        List.count_cons, List.count_cons]
      omega
    · rw [List.filter_cons_of_neg hp, List.filter_cons_of_pos (by simpa using hp),
        List.count_cons, List.count_cons]
      omega

lemma length_filter_split {α : Type} (l : List α) (p : α → Bool) :
    (l.filter p).length + (l.filter (fun x => !p x)).length = l.length := by
  induction l with
  | nil => rfl
  | cons x t ih =>
    by_cases hp : p x = true
    · rw [List.filter_cons_of_pos hp, List.filter_cons_of_neg (by simp [hp])]
      simp only [List.length_cons]
      omega
    · rw [List.filter_cons_of_neg hp, List.filter_cons_of_pos (by simpa using hp)]
      simp only [List.length_cons]
      omega

lemma countP_split {α : Type} (l : List α) (p : α → Bool) :
    l.countP p + l.countP (fun x => !p x) = l.length := by
  rw [List.countP_eq_length_filter, List.countP_eq_length_filter]
  exact length_filter_split l p

lemma prep_rows_of_contains (df : Frame) (sc : String)
    (hsc : df.cols.contains sc = true) :
    (_prep_common df sc).rows
      = (df.rows.map (prepRow (prepHasP df) (prepHasA df) sc)).filter (prepKeep sc) := by
  unfold _prep_common
  have hm : sc ∈ df.cols := by simpa using hsc
  simp [hm]

/-- C3: the status split is an exact partition of the rows surviving
normalization, the two subsets together never exceed the original frame, and
the deficit is exactly the set of rows whose Priority or status field
classified to null. -/
theorem split_by_status_partition (df : Frame) (sc : String)
    (hsc : df.cols.contains sc = true) :
    ∃ o c, filter_not_closed df sc = some o ∧ filter_closed df sc = some c ∧
      (o.rows.length + c.rows.length = (_prep_common df sc).rows.length) ∧
      (∀ r : Row, o.rows.count r + c.rows.count r = (_prep_common df sc).rows.count r) ∧
      ((_prep_common df sc).rows.length ≤ df.rows.length) ∧
      ((_prep_common df sc).rows.length
        + df.rows.countP (fun r =>
            isNA (rowGet (prepRow (prepHasP df) (prepHasA df) sc r) "Priority")
            || isNA (rowGet (prepRow (prepHasP df) (prepHasA df) sc r) sc))
        = df.rows.length) := by
  refine ⟨_, _, filter_not_closed_of_contains df sc hsc, filter_closed_of_contains df sc hsc,
    ?_, ?_, ?_, ?_⟩
  · rw [Nat.add_comm]
    exact length_filter_split (_prep_common df sc).rows
      (fun r => rowGet r sc == Cell.text "Closed")
  · intro r
    rw [Nat.add_comm]
    exact count_filter_split (_prep_common df sc).rows
      (fun r => rowGet r sc == Cell.text "Closed") r
  · rw [prep_rows_of_contains df sc hsc]
    calc ((df.rows.map (prepRow (prepHasP df) (prepHasA df) sc)).filter (prepKeep sc)).length
        ≤ (df.rows.map (prepRow (prepHasP df) (prepHasA df) sc)).length :=
          List.length_filter_le _ _
      _ = df.rows.length := List.length_map _ _
  · rw [prep_rows_of_contains df sc hsc, ← List.countP_eq_length_filter, List.countP_map]
    have hsplit := countP_split df.rows
      ((prepKeep sc) ∘ (prepRow (prepHasP df) (prepHasA df) sc))
    have hcong : df.rows.countP (fun r =>
        isNA (rowGet (prepRow (prepHasP df) (prepHasA df) sc r) "Priority")
        || isNA (rowGet (prepRow (prepHasP df) (prepHasA df) sc r) sc))
        = df.rows.countP
          (fun x => !((prepKeep sc) ∘ (prepRow (prepHasP df) (prepHasA df) sc)) x) := by
      apply List.countP_congr
      intro r _
      simp [prepKeep, Function.comp]
    rw [hcong]
    exact hsplit


/-- Witness for C3 on the concrete two-row frame: both splits succeed, the
partition is exact, and the prepped frame is no larger than the input. -/
theorem split_by_status_partition_witness :
    (∃ o c, filter_not_closed c3Frame "Status" = some o ∧
      filter_closed c3Frame "Status" = some c ∧
      o.rows.length + c.rows.length = (_prep_common c3Frame "Status").rows.length) ∧
    (_prep_common c3Frame "Status").rows.length ≤ c3Frame.rows.length := by
  obtain ⟨o, c, h1, h2, h3, _, h5, _⟩ := split_by_status_partition c3Frame "Status" (by decide)
  exact ⟨⟨o, c, h1, h2, h3⟩, h5⟩

lemma countEq_eq_count {α : Type} [inst : DecidableEq α] (l : List α) (a : α) :
    countEq l a = @List.count α (@instBEqOfDecidableEq α inst) a l := rfl

lemma sum_map_countEq_dedup (l : List (List Cell)) :
    (l.dedup.map (fun x => countEq l x)).sum = l.length := by
  simp only [countEq_eq_count]
  exact List.sum_map_count_dedup_eq_length l

lemma sum_map_countEq_dedup_dates (l : List Date) :
    (l.dedup.map (fun x => countEq l x)).sum = l.length := by
  simp only [countEq_eq_count]
  exact List.sum_map_count_dedup_eq_length l

lemma sum_groupby_size (keys : List String) (rows : List Row) :
    ((groupby_size keys rows).map Prod.snd).sum
      = rows.countP (fun r => (keyOf keys r).all (fun v => !isNA v)) := by
  unfold groupby_size
  rw [List.map_map]
  have he : (Prod.snd ∘ fun k : List Cell =>
      (k, countEq ((rows.filter (fun r => (keyOf keys r).all (fun v => !isNA v))).map
        (keyOf keys)) k))
      = fun k => countEq ((rows.filter (fun r => (keyOf keys r).all (fun v => !isNA v))).map
        (keyOf keys)) k := rfl
  rw [he, sum_map_countEq_dedup, List.length_map, ← List.countP_eq_length_filter]


/-- C7 is false as stated: the Assignee-by-Priority grouping drops the rows
whose Assigned-To key is null (pandas `groupby` default `dropna=True`), so
its counts sum to 0 on a 1-row input frame. -/
theorem aggregation_sum_cex :
    filter_not_closed c7Frame "Status" = some c7Filtered ∧
    c7Filtered.rows.length = 1 ∧
    ((assigned_to_counts c7Filtered).map Prod.snd).sum = 0 := by
  decide

/-- C7 amended: for every grouping, the sum of all group counts equals the
number of input rows whose key values are all non-null; in particular no row
of a successfully filtered frame is lost or double-counted by the
Priority-by-status grouping, while rows with a null Assigned-To key are
excluded from the Assignee-by-Priority table. -/
theorem aggregation_sum_amended :
    (∀ (keys : List String) (rows : List Row),
      ((groupby_size keys rows).map Prod.snd).sum
        = rows.countP (fun r => (keyOf keys r).all (fun v => !isNA v))) ∧
    (∀ (df : Frame) (sc : String) (d : Frame), filter_not_closed df sc = some d →
      ((open_stacked_counts d sc).map Prod.snd).sum = d.rows.length) := by
  refine ⟨sum_groupby_size, ?_⟩
  intro df sc d hd
  by_cases hsc : df.cols.contains sc = true
  · rw [filter_not_closed_of_contains df sc hsc] at hd
    rw [← Option.some.inj hd]
    unfold open_stacked_counts
    rw [sum_groupby_size]
    apply List.countP_eq_length.mpr
    intro r hr
    have hr2 := (List.mem_filter.mp hr).1
    rw [prep_rows_of_contains df sc hsc] at hr2
    have hkeep := (List.mem_filter.mp hr2).2
    simp only [prepKeep, Bool.and_eq_true] at hkeep
    simp [keyOf, hkeep.1, hkeep.2]
  · rw [filter_not_closed_missing df sc (by simpa using hsc)] at hd
    exact Option.noConfusion hd

/-- Witness for C7 (amended): on the concrete one-row frame the filter
succeeds with `c7Filtered` and the Priority-by-status counts sum to its row
count. -/
theorem aggregation_sum_amended_witness :
    filter_not_closed c7Frame "Status" = some c7Filtered ∧
    ((open_stacked_counts c7Filtered "Status").map Prod.snd).sum
      = c7Filtered.rows.length := by
  refine ⟨by decide, aggregation_sum_amended.2 c7Frame "Status" c7Filtered (by decide)⟩

lemma length_filterMap_eq_countP {α β : Type} (f : α → Option β) (l : List α) :
    (l.filterMap f).length = l.countP (fun a => (f a).isSome) := by
  induction l with
  | nil => rfl
  | cons x t ih =>
    rw [List.filterMap_cons, List.countP_cons]
    cases hf : f x <;> simp [hf, ih]

/-- C9: when the sheet has the "Date of the Work" column, the trend
aggregation drops exactly the rows whose date fails to parse, buckets the
rest by first-of-month truncation, and each month's count equals the number
of rows whose parsed date falls in that month; the month keys are exactly
the months that occur.  `pd.to_datetime` is external and is abstracted by
`parse`; the aggregation reads its input frame purely, so no other view is
affected. -/
theorem monthly_trend_spec (parse : Cell → Option Date) (df : Frame)
    (h : df.cols.contains "Date of the Work" = true) :
    ∃ cnts, monthly_trend_counts parse df = some cnts ∧
      ((cnts.map Prod.snd).sum
        = df.rows.countP (fun r => (parse (rowGet r "Date of the Work")).isSome)) ∧
      (∀ m cnt, (m, cnt) ∈ cnts →
        cnt = df.rows.countP (fun r =>
          (parse (rowGet r "Date of the Work")).map monthStart == some m)) ∧
      (∀ m : Date, (∃ cnt, (m, cnt) ∈ cnts) ↔
        ∃ r ∈ df.rows, (parse (rowGet r "Date of the Work")).map monthStart = some m) := by
  unfold monthly_trend_counts
  simp only [h, if_true]
  refine ⟨_, rfl, ?_, ?_, ?_⟩
  · rw [List.map_map]
    have he : (Prod.snd ∘ fun m : Date =>
        (m, countEq ((df.rows.filterMap (fun r => parse (rowGet r "Date of the Work"))).map
          monthStart) m))
        = fun m => countEq ((df.rows.filterMap (fun r => parse (rowGet r "Date of the Work"))).map
          monthStart) m := rfl
    rw [he, sum_map_countEq_dedup_dates, List.length_map]
    exact length_filterMap_eq_countP _ _
  · intro m cnt hmem
    obtain ⟨k, _, hpair⟩ := List.mem_map.mp hmem
    obtain ⟨hk, hc⟩ := Prod.mk.injEq .. ▸ hpair
    subst hk
    rw [← hc]
    simp only [countEq]
    rw [List.countP_map, List.countP_filterMap]
    apply List.countP_congr
    intro r _
    cases hp : parse (rowGet r "Date of the Work") <;> simp [hp]
  · intro m
    constructor
    · rintro ⟨cnt, hmem⟩
      obtain ⟨k, hk, hpair⟩ := List.mem_map.mp hmem
      obtain ⟨hk1, _⟩ := Prod.mk.injEq .. ▸ hpair
      subst hk1
      have hk2 := List.mem_dedup.mp hk
      obtain ⟨d, hd, hdm⟩ := List.mem_map.mp hk2
      obtain ⟨r, hr, hparse⟩ := List.mem_filterMap.mp hd
      exact ⟨r, hr, by rw [hparse]; simpa using hdm⟩
    · rintro ⟨r, hr, hparse⟩
      obtain ⟨d, hd, hdm⟩ := Option.map_eq_some'.mp hparse
      refine ⟨_, List.mem_map_of_mem _ (List.mem_dedup.mpr ?_)⟩
      apply List.mem_map.mpr
      exact ⟨d, List.mem_filterMap.mpr ⟨r, hr, hd⟩, hdm⟩


/-- Witness for C9: on the concrete frame the aggregation exists and its
counts sum to the number of parseable-date rows (2 of 3). -/
theorem monthly_trend_spec_witness :
    (monthly_trend_counts c9Parse c9Frame).isSome = true ∧
    (((monthly_trend_counts c9Parse c9Frame).getD []).map Prod.snd).sum
      = c9Frame.rows.countP
        (fun r => (c9Parse (rowGet r "Date of the Work")).isSome) := by
  obtain ⟨cnts, hc, hsum, _, _⟩ := monthly_trend_spec c9Parse c9Frame (by decide)
  rw [hc]
  exact ⟨rfl, hsum⟩

end Tickets

end WorkOrders
